import Mathlib

/-!
Verification of the proxy-selection core of the `rama` repository
(`src/proxy/proxydb/mod.rs`), over a shallow embedding in Lean 4.

Strings are modelled as Lean `String` (sequences of Unicode scalar values,
as in Rust), bytes as `Nat` values below 256.  The `base64` crate engine
used by the code (`base64::engine::general_purpose::STANDARD`: standard
alphabet, padding, canonical-padding decoding that rejects trailing bits)
is embedded as `base64EncodeList` / `base64DecodeList`, and Rust's
`String::from_utf8` as `utf8DecodeBytes`.
-/

/-! ### Base64 (standard alphabet, padded, canonical decoding) -/

/-- The standard base64 alphabet, as a list of 64 characters. -/
def b64alphabet : List Char :=
  "ABCDEFGHIJKLMNOPQRSTUVWXYZabcdefghijklmnopqrstuvwxyz0123456789+/".data

/-- Character of the standard alphabet at sextet `i`. -/
def b64c (i : Nat) : Char := b64alphabet.getD i 'A'

/-- Inverse alphabet lookup: the sextet encoded by `c`, if `c` is in the
alphabet.  `'='` is not in the alphabet. -/
def b64idx (c : Char) : Option Nat := b64alphabet.findIdx? (· = c)

/-- Encode a byte list in base64 with the standard alphabet and `=` padding,
as `base64::engine::general_purpose::STANDARD.encode` does. -/
def base64EncodeList : List Nat → List Char
  | [] => []
  | [b0] => [b64c (b0 / 4), b64c (b0 % 4 * 16), '=', '=']
  | [b0, b1] => [b64c (b0 / 4), b64c (b0 % 4 * 16 + b1 / 16), b64c (b1 % 16 * 4), '=']
  | b0 :: b1 :: b2 :: rest =>
    b64c (b0 / 4) :: b64c (b0 % 4 * 16 + b1 / 16) ::
      b64c (b1 % 16 * 4 + b2 / 64) :: b64c (b2 % 64) :: base64EncodeList rest

/-- Decode base64 with the standard engine's default decode config:
length must be a multiple of four, `=` only in the final group, canonical
padding, and trailing bits of a padded final group must be zero. -/
def base64DecodeList : List Char → Option (List Nat)
  | [] => some []
  | c0 :: c1 :: c2 :: c3 :: rest =>
    if rest = [] ∧ c3 = '=' then
      if c2 = '=' then
        match b64idx c0, b64idx c1 with
        | some i0, some i1 => if i1 % 16 = 0 then some [i0 * 4 + i1 / 16] else none
        | _, _ => none
      else
        match b64idx c0, b64idx c1, b64idx c2 with
        | some i0, some i1, some i2 =>
          if i2 % 4 = 0 then some [i0 * 4 + i1 / 16, i1 % 16 * 16 + i2 / 4] else none
        | _, _, _ => none
    else
      match b64idx c0, b64idx c1, b64idx c2, b64idx c3, base64DecodeList rest with
      | some i0, some i1, some i2, some i3, some bs =>
        some ((i0 * 4 + i1 / 16) :: (i1 % 16 * 16 + i2 / 4) :: (i2 % 4 * 64 + i3) :: bs)
      | _, _, _, _, _ => none
  | _ => none

/-! ### UTF-8 -/

/-- The UTF-8 encoding of one Unicode scalar value. -/
def utf8EncodeChar (c : Char) : List Nat :=
  if c.toNat < 0x80 then [c.toNat]
  else if c.toNat < 0x800 then [0xC0 + c.toNat / 64, 0x80 + c.toNat % 64]
  else if c.toNat < 0x10000 then
    [0xE0 + c.toNat / 4096, 0x80 + c.toNat / 64 % 64, 0x80 + c.toNat % 64]
  else
    [0xF0 + c.toNat / 0x40000, 0x80 + c.toNat / 4096 % 64,
      0x80 + c.toNat / 64 % 64, 0x80 + c.toNat % 64]

/-- The UTF-8 encoding of a character sequence (the bytes of a Rust `String`). -/
def utf8EncodeChars : List Char → List Nat
  | [] => []
  | c :: cs => utf8EncodeChar c ++ utf8EncodeChars cs

/-- The character with code point `n`, when `n` is a Unicode scalar value. -/
def mkChar? (n : Nat) : Option Char :=
  if n.isValidChar then some (Char.ofNat n) else none

/-- Whether a byte is a UTF-8 continuation byte. -/
def isCont (b : Nat) : Prop := 0x80 ≤ b ∧ b < 0xC0

instance (b : Nat) : Decidable (isCont b) := by unfold isCont; infer_instance

/-- One step of strict UTF-8 decoding: given the lead byte and the
remaining bytes, the decoded scalar and the bytes left over.  Rejects
invalid leads, truncated or non-continuation tails, overlong forms,
surrogates and out-of-range code points. -/
def utf8DecodeStep (b0 : Nat) (l : List Nat) : Option (Char × List Nat) :=
  if b0 < 0x80 then
    (mkChar? b0).map fun c => (c, l)
  else if b0 < 0xE0 then
    match l with
    | b1 :: l1 =>
      if 0xC2 ≤ b0 ∧ isCont b1 then
        (mkChar? ((b0 - 0xC0) * 64 + (b1 - 0x80))).map fun c => (c, l1)
      else none
    | [] => none
  else if b0 < 0xF0 then
    match l with
    | b1 :: b2 :: l2 =>
      if isCont b1 ∧ isCont b2 then
        if 0x800 ≤ (b0 - 0xE0) * 4096 + (b1 - 0x80) * 64 + (b2 - 0x80) then
          (mkChar? ((b0 - 0xE0) * 4096 + (b1 - 0x80) * 64 + (b2 - 0x80))).map fun c => (c, l2)
        else none
      else none
    | _ => none
  else if b0 < 0xF5 then
    match l with
    | b1 :: b2 :: b3 :: l3 =>
      if isCont b1 ∧ isCont b2 ∧ isCont b3 then
        if 0x10000 ≤ (b0 - 0xF0) * 0x40000 + (b1 - 0x80) * 4096 + (b2 - 0x80) * 64 + (b3 - 0x80) then
          (mkChar? ((b0 - 0xF0) * 0x40000 + (b1 - 0x80) * 4096 +
            (b2 - 0x80) * 64 + (b3 - 0x80))).map fun c => (c, l3)
        else none
      else none
    | _ => none
  else none

/-- The decoding loop: one unit of fuel is spent per decoded scalar, so
any fuel of at least the byte count suffices (a scalar takes at least one
byte). -/
def utf8DecodeGo : Nat → List Nat → Option (List Char)
  | _, [] => some []
  | 0, _ :: _ => none
  | fuel + 1, b0 :: l =>
    match utf8DecodeStep b0 l with
    | none => none
    | some (c, rest) => (utf8DecodeGo fuel rest).map (c :: ·)

/-- Strict UTF-8 decoding of a byte list, as Rust's `String::from_utf8`. -/
def utf8DecodeBytes (l : List Nat) : Option (List Char) :=
  utf8DecodeGo l.length l

/-! ### Proxy credentials (`ProxyCredentials`, its `Display` and `FromStr`) -/

/-- The credentials to authenticate with the proxy: `Basic` with username
and optional password, or an opaque `Bearer` token. -/
inductive ProxyCredentials where
  | basic (username : String) (password : Option String)
  | bearer (token : String)
deriving DecidableEq

/-- The error returned when parsing a proxy credentials string fails. -/
inductive InvalidProxyCredentialsString where
  | mk
deriving DecidableEq

/-- Split a character list at the first occurrence of `sep`, keeping the
remainder (without the separator) when a separator occurs; this is the
behaviour of Rust's `splitn(2, sep)` (first element plus optional rest). -/
def splitFirst (sep : Char) : List Char → List Char × Option (List Char)
  | [] => ([], none)
  | c :: cs =>
    if c = sep then ([], some cs)
    else
      let r := splitFirst sep cs
      (c :: r.1, r.2)

/-- The `Display` rendering of `ProxyCredentials` (mod.rs lines 60-74):
`Basic` followed by the base64 of `username:password` (or of the username
alone when there is no password), `Bearer` followed by the verbatim token. -/
def toDisplayString : ProxyCredentials → String
  | .basic u (some p) => "Basic " ++ String.mk (base64EncodeList (utf8EncodeChars (u ++ ":" ++ p).data))
  | .basic u none => "Basic " ++ String.mk (base64EncodeList (utf8EncodeChars u.data))
  | .bearer t => "Bearer " ++ t

/-- `ProxyCredentials::from_str` (mod.rs lines 81-112): split once on the
first space; scheme `Basic` base64-decodes the remainder, reads it as
UTF-8 and splits once on the first colon into username and optional
password; scheme `Bearer` takes the remainder verbatim; everything else,
or a missing remainder, or a failed decode, is the single error. -/
def from_str (s : String) : Except InvalidProxyCredentialsString ProxyCredentials :=
  let parts := splitFirst ' ' s.data
  if parts.1 = "Basic".data then
    match parts.2 with
    | none => .error .mk
    | some encoded =>
      match base64DecodeList encoded with
      | none => .error .mk
      | some bytes =>
        match utf8DecodeBytes bytes with
        | none => .error .mk
        | some decoded =>
          let cparts := splitFirst ':' decoded
          .ok (.basic (String.mk cparts.1) (cparts.2.map String.mk))
  else if parts.1 = "Bearer".data then
    match parts.2 with
    | none => .error .mk
    | some token => .ok (.bearer (String.mk token))
  else .error .mk

/-! ### The proxy record store and its query model -/

/-- Modelled from the spec: the categorical filter value type
(`StringFilter`, whose source module `str.rs` is absent from src/):
either a concrete string or an explicit wildcard marker. -/
inductive StringFilter where
  | wildcard
  | value (s : String)
deriving DecidableEq

/-- Modelled from the spec: categorical matching of a stored attribute
value against a query value.  A stored wildcard matches every query
value; a stored concrete value matches only an identical concrete query
value and never a query-side wildcard. -/
def sfMatches (stored : StringFilter) (q : StringFilter) : Bool :=
  match stored with
  | .wildcard => true
  | .value s =>
    match q with
    | .value t => s == t
    | .wildcard => false

/-- HTTP versions, as in the `http` crate's `Version` constants. -/
inductive Version where
  | http09
  | http10
  | http11
  | http2
  | http3
deriving DecidableEq

/-- Modelled from the spec: the `RequestContext` consumed by the facade
(its source module is absent from src/); only `http_version` is read by
this core. -/
structure RequestContext where
  http_version : Version
  scheme : String
  host : Option String
  port : Option Nat
deriving DecidableEq

/-- Modelled from the spec: the proxy record (`internal::Proxy`, whose
source module is absent from src/): unique id, optional categorical
attributes (absent means always matches), capability flags, optional
credentials. -/
structure Proxy where
  id : String
  tcp : Bool
  udp : Bool
  socks5 : Bool
  datacenter : Bool
  residential : Bool
  mobile : Bool
  pool_id : Option StringFilter
  country : Option StringFilter
  city : Option StringFilter
  carrier : Option StringFilter
  credentials : Option ProxyCredentials
deriving DecidableEq

/-- The caller-supplied filter (`ProxyFilter`, mod.rs lines 147-171):
every field optional. -/
structure ProxyFilter where
  id : Option String
  pool_id : Option StringFilter
  country : Option StringFilter
  city : Option StringFilter
  datacenter : Option Bool
  residential : Option Bool
  mobile : Option Bool
  carrier : Option StringFilter
deriving DecidableEq

/-- The all-unset filter (`ProxyFilter::default`). -/
def defaultFilter : ProxyFilter :=
  ⟨none, none, none, none, none, none, none, none⟩

/-- A categorical query constraint against a stored attribute: an unset
constraint restricts nothing, a stored absent attribute always matches. -/
def catOk (constraint : Option StringFilter) (stored : Option StringFilter) : Bool :=
  match constraint with
  | none => true
  | some q =>
    match stored with
    | none => true
    | some s => sfMatches s q

/-- A boolean query constraint against a stored flag: an unset constraint
restricts nothing, a set one requires exact equality. -/
def boolOk (constraint : Option Bool) (b : Bool) : Bool :=
  match constraint with
  | none => true
  | some v => v == b

/-- Modelled from the spec: the implicit protocol requirement derived from
the request context (checked by `Proxy::is_match`, whose source module is
absent from src/): HTTP/3 requires `udp` and `socks5`, everything else
requires `tcp`. -/
def protocolOk (v : Version) (p : Proxy) : Bool :=
  if v = Version.http3 then p.udp && p.socks5 else p.tcp

/-- Modelled from the spec: `Proxy::is_match` (its source module is absent
from src/): the record must satisfy every set non-id filter field and the
protocol requirement derived from the context. -/
def is_match (p : Proxy) (ctx : RequestContext) (f : ProxyFilter) : Bool :=
  catOk f.pool_id p.pool_id && catOk f.country p.country && catOk f.city p.city &&
    catOk f.carrier p.carrier && boolOk f.datacenter p.datacenter &&
    boolOk f.residential p.residential && boolOk f.mobile p.mobile &&
    protocolOk ctx.http_version p

/-- The accumulated constraints of a query builder
(`internal::ProxyDBQuery`). -/
structure ProxyDBQuery where
  pool_id : Option StringFilter
  country : Option StringFilter
  city : Option StringFilter
  carrier : Option StringFilter
  datacenter : Option Bool
  residential : Option Bool
  mobile : Option Bool
  tcp : Option Bool
  udp : Option Bool
  socks5 : Option Bool
deriving DecidableEq

/-- The fresh query builder with no constraint set. -/
def emptyQuery : ProxyDBQuery :=
  ⟨none, none, none, none, none, none, none, none, none, none⟩

/-- `MemoryProxyDB::query_from_filter` (mod.rs lines 245-286): copy the set
`pool_id`, `country`, `city`, `datacenter`, `residential`, `mobile` filter
fields into the query, then add the protocol constraint: HTTP/3 sets
`udp = true` and `socks5 = true`, any other version sets `tcp = true`.
The `carrier` filter field is not consulted. -/
def query_from_filter (ctx : RequestContext) (f : ProxyFilter) : ProxyDBQuery :=
  let q := emptyQuery
  let q := match f.pool_id with
    | some v => { q with pool_id := some v }
    | none => q
  let q := match f.country with
    | some v => { q with country := some v }
    | none => q
  let q := match f.city with
    | some v => { q with city := some v }
    | none => q
  let q := match f.datacenter with
    | some v => { q with datacenter := some v }
    | none => q
  let q := match f.residential with
    | some v => { q with residential := some v }
    | none => q
  let q := match f.mobile with
    | some v => { q with mobile := some v }
    | none => q
  if ctx.http_version = Version.http3 then
    { q with udp := some true, socks5 := some true }
  else
    { q with tcp := some true }

/-- Modelled from the spec: whether a record satisfies every constraint of
a query (the venndb query engine's source is absent from src/): boolean
flags must equal every set boolean constraint and categorical attributes
must match every set categorical constraint. -/
def queryMatches (q : ProxyDBQuery) (p : Proxy) : Bool :=
  catOk q.pool_id p.pool_id && catOk q.country p.country && catOk q.city p.city &&
    catOk q.carrier p.carrier && boolOk q.datacenter p.datacenter &&
    boolOk q.residential p.residential && boolOk q.mobile p.mobile &&
    boolOk q.tcp p.tcp && boolOk q.udp p.udp && boolOk q.socks5 p.socks5

/-- Modelled from the spec: the candidate set of a query over a store. -/
def candidates (db : List Proxy) (q : ProxyDBQuery) : List Proxy :=
  db.filter (queryMatches q)

/-- The in-memory proxy database (`MemoryProxyDB`): the immutable record
set built at construction time. -/
structure MemoryProxyDB where
  data : List Proxy
deriving DecidableEq

/-- Modelled from the spec: the uniform random draw of the query engine,
over an explicit seed; every candidate is reachable for some seed and an
empty candidate set yields no pick. -/
def pick (seed : Nat) (l : List Proxy) : Option Proxy :=
  l[seed % l.length]?

/-- Modelled from the spec: `internal::ProxyDB::get_by_id` (its source
module is absent from src/): the record with the given unique id, if any. -/
def get_by_id (db : MemoryProxyDB) (id : String) : Option Proxy :=
  db.data.find? (fun p => p.id == id)

/-- The kind of query error (`MemoryProxyDBQueryErrorKind`, mod.rs lines
425-432): no match found, or an id-pinned record failing validation. -/
inductive MemoryProxyDBQueryErrorKind where
  | notFound
  | mismatch
deriving DecidableEq

/-- `MemoryProxyDB::get_proxy` (mod.rs lines 292-316).  With a set
`filter.id`: absent id is `NotFound`, a found record failing `is_match` is
`Mismatch`, otherwise the record is returned.  Without an id: a query built
by `query_from_filter` is executed and a random candidate returned,
`NotFound` when the candidate set is empty.  The random draw is modelled by
the explicit `seed`. -/
def get_proxy (db : MemoryProxyDB) (seed : Nat) (ctx : RequestContext)
    (f : ProxyFilter) : Except MemoryProxyDBQueryErrorKind Proxy :=
  match f.id with
  | some id =>
    match get_by_id db id with
    | none => .error .notFound
    | some p => if is_match p ctx f then .ok p else .error .mismatch
  | none =>
    match pick seed (candidates db.data (query_from_filter ctx f)) with
    | none => .error .notFound
    | some p => .ok p

/-- `MemoryProxyDB::get_proxy_if` (mod.rs lines 318-348): as `get_proxy`,
but a found id-pinned record must also satisfy the predicate (else
`Mismatch`), and on the query path the predicate narrows the candidate set
before the random draw (`NotFound` when nothing remains). -/
def get_proxy_if (db : MemoryProxyDB) (seed : Nat) (ctx : RequestContext)
    (f : ProxyFilter) (pred : Proxy → Bool) :
    Except MemoryProxyDBQueryErrorKind Proxy :=
  match f.id with
  | some id =>
    match get_by_id db id with
    | none => .error .notFound
    | some p => if is_match p ctx f && pred p then .ok p else .error .mismatch
  | none =>
    match pick seed ((candidates db.data (query_from_filter ctx f)).filter pred) with
    | none => .error .notFound
    | some p => .ok p

/-- The kind of insertion error (`MemoryProxyDBInsertErrorKind`, mod.rs
lines 375-385). -/
inductive MemoryProxyDBInsertErrorKind where
  | duplicateKey
  | invalidProxy
deriving DecidableEq

/-- The insertion error (`MemoryProxyDBInsertError`, mod.rs lines 353-357
and 387-417): its `proxies` field is what `proxies()` and `into_proxies()`
expose. -/
structure MemoryProxyDBInsertError where
  kind : MemoryProxyDBInsertErrorKind
  proxies : List Proxy
deriving DecidableEq

/-- Modelled from the spec: the duplicate-id scan of
`internal::ProxyDB::from_rows` (its source module is absent from src/):
true when two records of the batch share an id. -/
def hasDuplicateIds : List Proxy → Bool
  | [] => false
  | p :: rest => rest.any (fun q => p.id == q.id) || hasDuplicateIds rest

/-- `MemoryProxyDB::try_from_rows` (mod.rs lines 211-219): all-or-nothing
construction; a batch with a duplicate id yields a `DuplicateKey` error
carrying the entire original batch (`err.into_input()`), otherwise the
store holds exactly the given records. -/
def try_from_rows (l : List Proxy) :
    Except MemoryProxyDBInsertError MemoryProxyDB :=
  if hasDuplicateIds l then .error ⟨.duplicateKey, l⟩ else .ok ⟨l⟩

/-- Modelled from the spec: "split once on the first space into scheme and
remainder" read literally as take-up-to / drop-past the first separator,
for comparison with the code's `splitFirst`. -/
def splitOnceSpec (sep : Char) (l : List Char) : List Char × Option (List Char) :=
  (l.takeWhile (· ≠ sep),
    if l.any (· = sep) then some ((l.dropWhile (· ≠ sep)).tail) else none)

/-- Modelled from the spec: the reference credential parse of spec section
4.4, stated with `splitOnceSpec` in place of the code's `splitFirst`:
scheme `Basic` base64-decodes the remainder as UTF-8 and splits once on
the first colon, scheme `Bearer` takes the remainder verbatim, and every
failure is the single `InvalidProxyCredentialsString` error. -/
def parse_spec (s : String) : Except InvalidProxyCredentialsString ProxyCredentials :=
  let parts := splitOnceSpec ' ' s.data
  if parts.1 = "Basic".data then
    match parts.2 with
    | none => .error .mk
    | some encoded =>
      match base64DecodeList encoded with
      | none => .error .mk
      | some bytes =>
        match utf8DecodeBytes bytes with
        | none => .error .mk
        | some decoded =>
          let cparts := splitOnceSpec ':' decoded
          .ok (.basic (String.mk cparts.1) (cparts.2.map String.mk))
  else if parts.1 = "Bearer".data then
    match parts.2 with
    | none => .error .mk
    | some token => .ok (.bearer (String.mk token))
  else .error .mk

/-! ### Concrete fixtures -/

/-- An HTTP/2 request context, as in the repository's tests. -/
def h2ctx : RequestContext := ⟨Version.http2, "https", some "example.com", none⟩

/-- An HTTP/3 request context, as in the repository's tests. -/
def h3ctx : RequestContext := ⟨Version.http3, "https", some "example.com", some 8443⟩

/-- A fully capable mobile proxy record used as a test fixture. -/
def proxyA : Proxy :=
  ⟨"1", true, true, true, false, false, true, some (.value "poolA"),
    some (.value "AU"), some (.value "Adelaide"), some (.value "att"), none⟩

/-- A TCP-only record whose only categorical attribute is a concrete
carrier. -/
def carrierProxy : Proxy :=
  ⟨"7", true, false, false, false, false, false, none, none, none,
    some (.value "att"), none⟩

/-- A query-path filter asking for a different carrier than
`carrierProxy` has. -/
def carrierFilter : ProxyFilter :=
  ⟨none, none, none, none, none, none, none, some (.value "verizon")⟩

/-- An identity-path filter pinning the id of `proxyA`. -/
def idFilterA : ProxyFilter :=
  ⟨some "1", none, none, none, none, none, none, none⟩

/-! ### Helper lemmas -/

lemma pick_mem {seed : Nat} {l : List Proxy} {p : Proxy}
    (h : pick seed l = some p) : p ∈ l := by
  unfold pick at h
  exact List.getElem?_mem h

lemma pick_nil (seed : Nat) : pick seed ([] : List Proxy) = none := by
  simp [pick]

lemma query_from_filter_http3 (ctx : RequestContext) (f : ProxyFilter)
    (h : ctx.http_version = Version.http3) :
    (query_from_filter ctx f).udp = some true ∧
      (query_from_filter ctx f).socks5 = some true := by
  unfold query_from_filter
  rcases f with ⟨fid, fpool, fcountry, fcity, fdc, fres, fmob, fcar⟩
  cases fpool <;> cases fcountry <;> cases fcity <;> cases fdc <;>
    cases fres <;> cases fmob <;> simp [h, emptyQuery]

lemma query_from_filter_tcp (ctx : RequestContext) (f : ProxyFilter)
    (h : ¬ ctx.http_version = Version.http3) :
    (query_from_filter ctx f).tcp = some true := by
  unfold query_from_filter
  rcases f with ⟨fid, fpool, fcountry, fcity, fdc, fres, fmob, fcar⟩
  cases fpool <;> cases fcountry <;> cases fcity <;> cases fdc <;>
    cases fres <;> cases fmob <;> simp [h, emptyQuery]

lemma queryMatches_flags {q : ProxyDBQuery} {p : Proxy}
    (h : queryMatches q p = true) :
    boolOk q.tcp p.tcp = true ∧ boolOk q.udp p.udp = true ∧
      boolOk q.socks5 p.socks5 = true := by
  unfold queryMatches at h
  simp only [Bool.and_eq_true] at h
  exact ⟨h.1.1.2, h.1.2, h.2⟩

lemma boolOk_some_true {b : Bool} (h : boolOk (some true) b = true) :
    b = true := by
  cases b
  · simp [boolOk] at h
  · rfl

lemma find_by_id_of_nodup (l : List Proxy) (r : Proxy) (X : String)
    (hu : (l.map Proxy.id).Nodup) (hr : r ∈ l) (hid : r.id = X) :
    l.find? (fun p => p.id == X) = some r := by
  induction l with
  | nil => cases hr
  | cons a t ih =>
    rcases List.mem_cons.mp hr with heq | hmem
    · subst heq
      exact List.find?_cons_of_pos _ (by simp [hid])
    · have hne : ¬ a.id = X := by
        intro hax
        have : a.id ∈ t.map Proxy.id := by
          refine List.mem_map.mpr ⟨r, hmem, ?_⟩
          rw [hid, hax]
        exact (List.nodup_cons.mp hu).1 this
      rw [List.find?_cons_of_neg _ (by simp [hne])]
      exact ih (List.nodup_cons.mp hu).2 hmem

lemma hasDuplicateIds_eq_false_iff (l : List Proxy) :
    hasDuplicateIds l = false ↔ (l.map Proxy.id).Nodup := by
  induction l with
  | nil => simp [hasDuplicateIds]
  | cons a t ih =>
    simp only [hasDuplicateIds, Bool.or_eq_false_iff, List.map_cons,
      List.nodup_cons, ih]
    constructor
    · rintro ⟨h1, h2⟩
      refine ⟨?_, h2⟩
      intro hmem
      rcases List.mem_map.mp hmem with ⟨q, hq, hqid⟩
      have : t.any (fun q => a.id == q.id) = true :=
        List.any_eq_true.mpr ⟨q, hq, by simp [hqid]⟩
      rw [this] at h1
      cases h1
    · rintro ⟨h1, h2⟩
      refine ⟨?_, h2⟩
      by_contra hne
      rcases List.any_eq_true.mp (eq_true_of_ne_false hne) with ⟨q, hq, hqid⟩
      have hqe : a.id = q.id := by simpa using hqid
      exact h1 (List.mem_map.mpr ⟨q, hq, hqe.symm⟩)

lemma b64idx_b64c : ∀ i < 64, b64idx (b64c i) = some i := by decide

lemma b64c_ne_pad : ∀ i < 64, b64c i ≠ '=' := by decide

lemma base64_roundtrip : ∀ bs : List Nat, (∀ b ∈ bs, b < 256) →
    base64DecodeList (base64EncodeList bs) = some bs := by
  intro bs
  induction bs using base64EncodeList.induct with
  | case1 => intro _; rfl
  | case2 b0 =>
    intro h
    have h0 : b0 < 256 := h b0 (by simp)
    have e0 := b64idx_b64c (b0 / 4) (by omega)
    have e1 := b64idx_b64c (b0 % 4 * 16) (by omega)
    have m1 : b0 % 4 * 16 % 16 = 0 := by omega
    have key : b0 / 4 * 4 + b0 % 4 * 16 / 16 = b0 := by omega
    rw [show base64EncodeList [b0] =
      [b64c (b0 / 4), b64c (b0 % 4 * 16), '=', '='] from rfl]
    rw [base64DecodeList]
    rw [if_pos ⟨rfl, rfl⟩, if_pos rfl, e0, e1]
    dsimp only
    rw [if_pos m1, key]
  | case3 b0 b1 =>
    intro h
    have h0 : b0 < 256 := h b0 (by simp)
    have h1 : b1 < 256 := h b1 (by simp)
    have e0 := b64idx_b64c (b0 / 4) (by omega)
    have e1 := b64idx_b64c (b0 % 4 * 16 + b1 / 16) (by omega)
    have e2 := b64idx_b64c (b1 % 16 * 4) (by omega)
    have hne : ¬ b64c (b1 % 16 * 4) = '=' := b64c_ne_pad (b1 % 16 * 4) (by omega)
    have m2 : b1 % 16 * 4 % 4 = 0 := by omega
    have k1 : b0 / 4 * 4 + (b0 % 4 * 16 + b1 / 16) / 16 = b0 := by omega
    have k2 : (b0 % 4 * 16 + b1 / 16) % 16 * 16 + b1 % 16 * 4 / 4 = b1 := by omega
    rw [show base64EncodeList [b0, b1] =
      [b64c (b0 / 4), b64c (b0 % 4 * 16 + b1 / 16), b64c (b1 % 16 * 4), '='] from rfl]
    rw [base64DecodeList]
    rw [if_pos ⟨rfl, rfl⟩, if_neg hne, e0, e1, e2]
    dsimp only
    rw [if_pos m2, k1, k2]
  | case4 b0 b1 b2 rest ih =>
    intro h
    have h0 : b0 < 256 := h b0 (by simp)
    have h1 : b1 < 256 := h b1 (by simp)
    have h2 : b2 < 256 := h b2 (by simp)
    have hrest : base64DecodeList (base64EncodeList rest) = some rest :=
      ih (fun b hb => h b (by simp [hb]))
    have e0 := b64idx_b64c (b0 / 4) (by omega)
    have e1 := b64idx_b64c (b0 % 4 * 16 + b1 / 16) (by omega)
    have e2 := b64idx_b64c (b1 % 16 * 4 + b2 / 64) (by omega)
    have e3 := b64idx_b64c (b2 % 64) (by omega)
    have hne : ¬ (base64EncodeList rest = [] ∧ b64c (b2 % 64) = '=') :=
      fun hc => b64c_ne_pad (b2 % 64) (by omega) hc.2
    have k1 : b0 / 4 * 4 + (b0 % 4 * 16 + b1 / 16) / 16 = b0 := by omega
    have k2 : (b0 % 4 * 16 + b1 / 16) % 16 * 16 + (b1 % 16 * 4 + b2 / 64) / 4 = b1 := by omega
    have k3 : (b1 % 16 * 4 + b2 / 64) % 4 * 64 + b2 % 64 = b2 := by omega
    rw [show base64EncodeList (b0 :: b1 :: b2 :: rest) =
      b64c (b0 / 4) :: b64c (b0 % 4 * 16 + b1 / 16) ::
        b64c (b1 % 16 * 4 + b2 / 64) :: b64c (b2 % 64) :: base64EncodeList rest from rfl]
    rw [base64DecodeList]
    rw [if_neg hne, e0, e1, e2, e3, hrest]
    dsimp only
    rw [k1, k2, k3]

lemma mkChar?_toNat (c : Char) : mkChar? c.toNat = some c := by
  have hv : (c.toNat).isValidChar := c.valid
  simp [mkChar?, hv, Char.ofNat_toNat]

lemma utf8_step_one (n : Nat) (bs : List Nat) (h1 : n < 0x80) :
    utf8DecodeStep n bs = (mkChar? n).map fun c => (c, bs) := by
  unfold utf8DecodeStep
  rw [if_pos h1]

lemma utf8_step_two (n : Nat) (bs : List Nat) (h1 : 0x80 ≤ n) (h2 : n < 0x800) :
    utf8DecodeStep (0xC0 + n / 64) ((0x80 + n % 64) :: bs) =
      (mkChar? n).map fun c => (c, bs) := by
  have c1 : ¬ (0xC0 + n / 64 < 0x80) := by omega
  have c2 : 0xC0 + n / 64 < 0xE0 := by omega
  have c3 : 0xC2 ≤ 0xC0 + n / 64 := by omega
  have c4 : isCont (0x80 + n % 64) := ⟨by omega, by omega⟩
  have key : (0xC0 + n / 64 - 0xC0) * 64 + (0x80 + n % 64 - 0x80) = n := by omega
  unfold utf8DecodeStep
  rw [if_neg c1, if_pos c2]
  dsimp only
  rw [if_pos ⟨c3, c4⟩, key]

lemma utf8_step_three (n : Nat) (bs : List Nat) (h1 : 0x800 ≤ n) (h2 : n < 0x10000) :
    utf8DecodeStep (0xE0 + n / 4096) ((0x80 + n / 64 % 64) :: (0x80 + n % 64) :: bs) =
      (mkChar? n).map fun c => (c, bs) := by
  have c1 : ¬ (0xE0 + n / 4096 < 0x80) := by omega
  have c2 : ¬ (0xE0 + n / 4096 < 0xE0) := by omega
  have c3 : 0xE0 + n / 4096 < 0xF0 := by omega
  have c4 : isCont (0x80 + n / 64 % 64) := ⟨by omega, by omega⟩
  have c5 : isCont (0x80 + n % 64) := ⟨by omega, by omega⟩
  have key : (0xE0 + n / 4096 - 0xE0) * 4096 + (0x80 + n / 64 % 64 - 0x80) * 64 +
      (0x80 + n % 64 - 0x80) = n := by omega
  unfold utf8DecodeStep
  rw [if_neg c1, if_neg c2, if_pos c3]
  dsimp only
  rw [if_pos ⟨c4, c5⟩, key, if_pos h1]

lemma utf8_step_four (n : Nat) (bs : List Nat) (h1 : 0x10000 ≤ n) (h2 : n < 0x110000) :
    utf8DecodeStep (0xF0 + n / 0x40000)
        ((0x80 + n / 4096 % 64) :: (0x80 + n / 64 % 64) :: (0x80 + n % 64) :: bs) =
      (mkChar? n).map fun c => (c, bs) := by
  have c1 : ¬ (0xF0 + n / 0x40000 < 0x80) := by omega
  have c2 : ¬ (0xF0 + n / 0x40000 < 0xE0) := by omega
  have c3 : ¬ (0xF0 + n / 0x40000 < 0xF0) := by omega
  have c4 : 0xF0 + n / 0x40000 < 0xF5 := by omega
  have c5 : isCont (0x80 + n / 4096 % 64) := ⟨by omega, by omega⟩
  have c6 : isCont (0x80 + n / 64 % 64) := ⟨by omega, by omega⟩
  have c7 : isCont (0x80 + n % 64) := ⟨by omega, by omega⟩
  have key : (0xF0 + n / 0x40000 - 0xF0) * 0x40000 + (0x80 + n / 4096 % 64 - 0x80) * 4096 +
      (0x80 + n / 64 % 64 - 0x80) * 64 + (0x80 + n % 64 - 0x80) = n := by omega
  unfold utf8DecodeStep
  rw [if_neg c1, if_neg c2, if_neg c3, if_pos c4]
  dsimp only
  rw [if_pos ⟨c5, c6, c7⟩, key, if_pos h1]

lemma utf8DecodeGo_encode (c : Char) (bs : List Nat) (fuel : Nat) :
    utf8DecodeGo (fuel + 1) (utf8EncodeChar c ++ bs) =
      (utf8DecodeGo fuel bs).map (c :: ·) := by
  have hv : c.toNat < 0xd800 ∨ (0xdfff < c.toNat ∧ c.toNat < 0x110000) := c.valid
  have hlt : c.toNat < 0x110000 := by
    rcases hv with h | ⟨ha, hb⟩ <;> omega
  have hm := mkChar?_toNat c
  by_cases h1 : c.toNat < 0x80
  · rw [show utf8EncodeChar c = [c.toNat] from by simp [utf8EncodeChar, h1],
      List.cons_append, List.nil_append]
    rw [utf8DecodeGo]
    rw [utf8_step_one c.toNat bs h1, hm]
    rfl
  · by_cases h2 : c.toNat < 0x800
    · rw [show utf8EncodeChar c ++ bs =
        (0xC0 + c.toNat / 64) :: (0x80 + c.toNat % 64) :: bs from
        by simp [utf8EncodeChar, h1, h2]]
      rw [utf8DecodeGo]
      rw [utf8_step_two c.toNat bs (by omega) h2, hm]
      rfl
    · by_cases h3 : c.toNat < 0x10000
      · rw [show utf8EncodeChar c ++ bs =
          (0xE0 + c.toNat / 4096) :: (0x80 + c.toNat / 64 % 64) ::
            (0x80 + c.toNat % 64) :: bs from by simp [utf8EncodeChar, h1, h2, h3]]
        rw [utf8DecodeGo]
        rw [utf8_step_three c.toNat bs (by omega) h3, hm]
        rfl
      · rw [show utf8EncodeChar c ++ bs =
          (0xF0 + c.toNat / 0x40000) :: (0x80 + c.toNat / 4096 % 64) ::
            (0x80 + c.toNat / 64 % 64) :: (0x80 + c.toNat % 64) :: bs from
          by simp [utf8EncodeChar, h1, h2, h3]]
        rw [utf8DecodeGo]
        rw [utf8_step_four c.toNat bs (by omega) hlt, hm]
        rfl

lemma utf8DecodeGo_nil (fuel : Nat) : utf8DecodeGo fuel [] = some [] := by
  cases fuel <;> rfl

lemma utf8EncodeChar_length_pos (c : Char) : 0 < (utf8EncodeChar c).length := by
  unfold utf8EncodeChar
  split
  · simp
  · split
    · simp
    · split <;> simp

lemma utf8EncodeChars_length_ge (cs : List Char) :
    cs.length ≤ (utf8EncodeChars cs).length := by
  induction cs with
  | nil => simp [utf8EncodeChars]
  | cons c cs ih =>
    rw [utf8EncodeChars]
    rw [List.length_append, List.length_cons]
    have := utf8EncodeChar_length_pos c
    omega

lemma utf8DecodeGo_roundtrip (cs : List Char) : ∀ fuel, cs.length ≤ fuel →
    utf8DecodeGo fuel (utf8EncodeChars cs) = some cs := by
  induction cs with
  | nil => intro fuel _; exact utf8DecodeGo_nil fuel
  | cons c cs ih =>
    intro fuel hf
    cases fuel with
    | zero => simp at hf
    | succ k =>
      rw [show utf8EncodeChars (c :: cs) = utf8EncodeChar c ++ utf8EncodeChars cs from rfl]
      rw [utf8DecodeGo_encode]
      rw [ih k (by simp at hf; omega)]
      rfl

lemma utf8_roundtrip (cs : List Char) :
    utf8DecodeBytes (utf8EncodeChars cs) = some cs := by
  unfold utf8DecodeBytes
  exact utf8DecodeGo_roundtrip cs _ (utf8EncodeChars_length_ge cs)

lemma utf8EncodeChar_lt (c : Char) : ∀ b ∈ utf8EncodeChar c, b < 256 := by
  have hv : c.toNat < 0xd800 ∨ (0xdfff < c.toNat ∧ c.toNat < 0x110000) := c.valid
  have hlt : c.toNat < 0x110000 := by
    rcases hv with h | ⟨ha, hb⟩ <;> omega
  intro b hb
  by_cases h1 : c.toNat < 0x80
  · rw [show utf8EncodeChar c = [c.toNat] from by simp [utf8EncodeChar, h1]] at hb
    simp at hb; omega
  · by_cases h2 : c.toNat < 0x800
    · rw [show utf8EncodeChar c = [0xC0 + c.toNat / 64, 0x80 + c.toNat % 64] from
        by simp [utf8EncodeChar, h1, h2]] at hb
      simp at hb; rcases hb with rfl | rfl <;> omega
    · by_cases h3 : c.toNat < 0x10000
      · rw [show utf8EncodeChar c =
            [0xE0 + c.toNat / 4096, 0x80 + c.toNat / 64 % 64, 0x80 + c.toNat % 64] from
          by simp [utf8EncodeChar, h1, h2, h3]] at hb
        simp at hb; rcases hb with rfl | rfl | rfl <;> omega
      · rw [show utf8EncodeChar c =
            [0xF0 + c.toNat / 0x40000, 0x80 + c.toNat / 4096 % 64,
              0x80 + c.toNat / 64 % 64, 0x80 + c.toNat % 64] from
          by simp [utf8EncodeChar, h1, h2, h3]] at hb
        simp at hb; rcases hb with rfl | rfl | rfl | rfl <;> omega

lemma utf8EncodeChars_lt (cs : List Char) : ∀ b ∈ utf8EncodeChars cs, b < 256 := by
  induction cs with
  | nil => intro b hb; simp [utf8EncodeChars] at hb
  | cons c cs ih =>
    intro b hb
    rw [utf8EncodeChars] at hb
    rcases List.mem_append.mp hb with hc | hc
    · exact utf8EncodeChar_lt c b hc
    · exact ih b hc

lemma splitFirst_append (sep : Char) (u v : List Char) (hu : sep ∉ u) :
    splitFirst sep (u ++ sep :: v) = (u, some v) := by
  induction u with
  | nil => simp [splitFirst]
  | cons a t ih =>
    have ha : ¬ a = sep := fun h => hu (h ▸ List.mem_cons_self a t)
    simp [splitFirst, ha, ih fun hm => hu (List.mem_cons_of_mem a hm)]

lemma basic_roundtrip (u p : String) (hu : (':' : Char) ∉ u.data) :
    from_str (toDisplayString (.basic u (some p))) = .ok (.basic u (some p)) := by
  have hdata : (toDisplayString (.basic u (some p))).data =
      "Basic".data ++ ' ' :: base64EncodeList (utf8EncodeChars (u ++ ":" ++ p).data) := rfl
  have h1 : splitFirst ' ' (toDisplayString (.basic u (some p))).data =
      ("Basic".data, some (base64EncodeList (utf8EncodeChars (u ++ ":" ++ p).data))) := by
    rw [hdata]
    exact splitFirst_append ' ' _ _ (by decide)
  have h2 : base64DecodeList (base64EncodeList (utf8EncodeChars (u.data ++ ':' :: p.data))) =
      some (utf8EncodeChars (u.data ++ ':' :: p.data)) :=
    base64_roundtrip _ (utf8EncodeChars_lt _)
  have h3 : utf8DecodeBytes (utf8EncodeChars (u.data ++ ':' :: p.data)) =
      some (u.data ++ ':' :: p.data) := utf8_roundtrip _
  have h4 : splitFirst ':' (u.data ++ ':' :: p.data) = (u.data, some p.data) :=
    splitFirst_append ':' _ _ hu
  simp [from_str, h1, h2, h3, h4]

lemma splitFirst_eq_splitOnceSpec (sep : Char) (l : List Char) :
    splitFirst sep l = splitOnceSpec sep l := by
  induction l with
  | nil => rfl
  | cons c cs ih =>
    by_cases hc : c = sep
    · subst hc
      simp [splitFirst, splitOnceSpec]
    · simp [splitFirst, splitOnceSpec, hc, ih]

/-! ### Claim theorems -/

/-- Claim C1: on the identity path (`filter.id = Some X`), `get_proxy`
returns `NotFound` when no record has id `X`; when a record with id `X`
exists it returns `Mismatch` if the record fails validation against the
other filter fields and the protocol requirement, and the record itself
if validation succeeds. -/
theorem identity_path_cases (db : MemoryProxyDB) (seed : Nat)
    (ctx : RequestContext) (f : ProxyFilter) (X : String)
    (hid : f.id = some X) (hu : (db.data.map Proxy.id).Nodup) :
    ((∀ p ∈ db.data, p.id ≠ X) → get_proxy db seed ctx f = .error .notFound) ∧
    (∀ r ∈ db.data, r.id = X →
      (is_match r ctx f = false → get_proxy db seed ctx f = .error .mismatch) ∧
      (is_match r ctx f = true → get_proxy db seed ctx f = .ok r)) := by
  constructor
  · intro habsent
    have hfind : get_by_id db X = none := by
      unfold get_by_id
      refine List.find?_eq_none.mpr ?_
      intro p hp
      simp [habsent p hp]
    simp [get_proxy, hid, hfind]
  · intro r hr hrid
    have hfind : get_by_id db X = some r :=
      find_by_id_of_nodup db.data r X hu hr hrid
    constructor
    · intro hmatch
      simp [get_proxy, hid, hfind, hmatch]
    · intro hmatch
      simp [get_proxy, hid, hfind, hmatch]

/-- Witness for C1 at a concrete store, context and filter. -/
theorem identity_path_cases_witness :
    get_proxy ⟨[proxyA]⟩ 0 h2ctx idFilterA = .ok proxyA :=
  ((identity_path_cases ⟨[proxyA]⟩ 0 h2ctx idFilterA "1" rfl (by decide)).2
    proxyA (by simp) rfl).2 (by decide)

/-- Claim C2: on the query path (`filter.id = None`) an HTTP/3 context only
ever yields records with `udp = true` and `socks5 = true`, and any other
HTTP version only ever yields records with `tcp = true`. -/
theorem get_proxy_query_protocol (db : MemoryProxyDB) (seed : Nat)
    (ctx : RequestContext) (f : ProxyFilter) (p : Proxy)
    (hid : f.id = none) (hok : get_proxy db seed ctx f = .ok p) :
    (ctx.http_version = Version.http3 → p.udp = true ∧ p.socks5 = true) ∧
    (ctx.http_version ≠ Version.http3 → p.tcp = true) := by
  cases hpick : pick seed (candidates db.data (query_from_filter ctx f)) with
  | none => simp [get_proxy, hid, hpick] at hok
  | some p' =>
    have hpp : p' = p := by
      simpa [get_proxy, hid, hpick] using hok
    subst hpp
    have hmem := pick_mem hpick
    have hqm : queryMatches (query_from_filter ctx f) p' = true :=
      List.of_mem_filter hmem
    have hflags := queryMatches_flags hqm
    by_cases h3 : ctx.http_version = Version.http3
    · obtain ⟨hu, hs⟩ := query_from_filter_http3 ctx f h3
      rw [hu] at hflags
      rw [hs] at hflags
      exact ⟨fun _ => ⟨boolOk_some_true hflags.2.1, boolOk_some_true hflags.2.2⟩,
        fun hne => absurd h3 hne⟩
    · have ht := query_from_filter_tcp ctx f h3
      rw [ht] at hflags
      exact ⟨fun heq => absurd heq h3, fun _ => boolOk_some_true hflags.1⟩

/-- Witness for C2 at a concrete store, HTTP/3 context and empty filter. -/
theorem get_proxy_query_protocol_witness :
    defaultFilter.id = none ∧
    get_proxy ⟨[proxyA]⟩ 0 h3ctx defaultFilter = .ok proxyA ∧
    ((h3ctx.http_version = Version.http3 → proxyA.udp = true ∧ proxyA.socks5 = true) ∧
      (h3ctx.http_version ≠ Version.http3 → proxyA.tcp = true)) :=
  ⟨rfl, rfl,
    get_proxy_query_protocol ⟨[proxyA]⟩ 0 h3ctx defaultFilter proxyA rfl rfl⟩

/-- Claim C3: the code at the failing input.  `query_from_filter` never
consults `filter.carrier`, so on the query path a record whose concrete
carrier does not match the filter's carrier is returned anyway, contrary
to the claim (and to the field's own documentation). -/
theorem carrier_ignored_on_query_path :
    get_proxy ⟨[carrierProxy]⟩ 0 h2ctx carrierFilter = .ok carrierProxy ∧
    sfMatches (StringFilter.value "att") (StringFilter.value "verizon") = false ∧
    carrierProxy.carrier = some (StringFilter.value "att") ∧
    carrierFilter.carrier = some (StringFilter.value "verizon") := by
  exact ⟨rfl, by decide, rfl, rfl⟩

/-- Claim C4: a batch with two records sharing an id is rejected whole:
`try_from_rows` fails with kind `DuplicateKey`, no store is constructed,
and the error carries the entire original batch unmodified. -/
theorem try_from_rows_duplicate (l : List Proxy)
    (h : ¬ (l.map Proxy.id).Nodup) :
    ∃ e, try_from_rows l = .error e ∧
      e.kind = MemoryProxyDBInsertErrorKind.duplicateKey ∧ e.proxies = l := by
  have hdup : hasDuplicateIds l = true := by
    by_contra hne
    exact h ((hasDuplicateIds_eq_false_iff l).mp (Bool.eq_false_iff.mpr hne))
  refine ⟨⟨.duplicateKey, l⟩, ?_, rfl, rfl⟩
  unfold try_from_rows
  rw [hdup]
  rfl

/-- Witness for C4 at a concrete duplicate batch. -/
theorem try_from_rows_duplicate_witness :
    ∃ e, try_from_rows [proxyA, proxyA] = .error e ∧
      e.kind = MemoryProxyDBInsertErrorKind.duplicateKey ∧
      e.proxies = [proxyA, proxyA] :=
  try_from_rows_duplicate [proxyA, proxyA] (by decide)

/-- Claim C5: on the query path the only error kind of `get_proxy` and
`get_proxy_if` is `NotFound`; in particular a predicate rejecting every
candidate yields `NotFound` even when the candidate set is non-empty. -/
theorem query_path_not_found_only (db : MemoryProxyDB) (seed : Nat)
    (ctx : RequestContext) (f : ProxyFilter) (pred : Proxy → Bool)
    (hid : f.id = none) :
    (∀ k, get_proxy db seed ctx f = .error k → k = .notFound) ∧
    (∀ k, get_proxy_if db seed ctx f pred = .error k → k = .notFound) ∧
    ((∀ p ∈ candidates db.data (query_from_filter ctx f), pred p = false) →
      get_proxy_if db seed ctx f pred = .error .notFound) := by
  refine ⟨?_, ?_, ?_⟩
  · intro k hk
    cases hpick : pick seed (candidates db.data (query_from_filter ctx f)) with
    | none =>
      have := hk
      simp [get_proxy, hid, hpick] at this
      exact this.symm
    | some p => simp [get_proxy, hid, hpick] at hk
  · intro k hk
    cases hpick : pick seed
        ((candidates db.data (query_from_filter ctx f)).filter pred) with
    | none =>
      have := hk
      simp [get_proxy_if, hid, hpick] at this
      exact this.symm
    | some p => simp [get_proxy_if, hid, hpick] at hk
  · intro hall
    have hnil : (candidates db.data (query_from_filter ctx f)).filter pred = [] := by
      refine List.filter_eq_nil_iff.mpr ?_
      intro a ha
      simp [hall a ha]
    simp [get_proxy_if, hid, hnil, pick_nil]

/-- Witness for C5: the all-rejecting predicate on a store whose candidate
set for the empty filter is non-empty. -/
theorem query_path_not_found_only_witness :
    (candidates [proxyA] (query_from_filter h2ctx defaultFilter) = [proxyA]) ∧
    get_proxy_if ⟨[proxyA]⟩ 0 h2ctx defaultFilter (fun _ => false) =
      .error .notFound :=
  ⟨by decide,
    (query_path_not_found_only ⟨[proxyA]⟩ 0 h2ctx defaultFilter
      (fun _ => false) rfl).2.2 (fun _ _ => rfl)⟩

/-- Claim C6: categorical matching is asymmetric with wildcard store-side:
a stored wildcard matches every query value, a stored concrete value
matches exactly the identical concrete query value and never a query-side
wildcard; hence a record attribute that is wildcard passes any concrete
constraint such as `country = "BE"`. -/
theorem wildcard_store_side :
    (∀ q : StringFilter, sfMatches StringFilter.wildcard q = true) ∧
    (∀ s t : String,
      sfMatches (StringFilter.value s) (StringFilter.value t) = true ↔ s = t) ∧
    (∀ s : String, sfMatches (StringFilter.value s) StringFilter.wildcard = false) ∧
    (∀ q : String, catOk (some (StringFilter.value q)) (some StringFilter.wildcard) = true) := by
  refine ⟨fun q => rfl, fun s t => ?_, fun s => rfl, fun q => rfl⟩
  simp [sfMatches]

/-- Claim C7: `from_str` equals the spec's reference parse on every input
string. -/
theorem from_str_matches_spec (s : String) : from_str s = parse_spec s := by
  unfold from_str parse_spec
  simp only [splitFirst_eq_splitOnceSpec]

/-- Claim C8: the `Display` rendering is exactly `Basic` plus the base64 of
`username:password` (password present), `Basic` plus the base64 of the
username (password absent), and `Bearer` plus the verbatim token. -/
theorem display_rendering (u p t : String) :
    toDisplayString (.basic u (some p)) =
      "Basic " ++ String.mk (base64EncodeList (utf8EncodeChars (u ++ ":" ++ p).data)) ∧
    toDisplayString (.basic u none) =
      "Basic " ++ String.mk (base64EncodeList (utf8EncodeChars u.data)) ∧
    toDisplayString (.bearer t) = "Bearer " ++ t :=
  ⟨rfl, rfl, rfl⟩

/-- Claim C9, counterexample: the claim is false as stated.  When the
username is colon-free the first colon of the decoded `username:password`
string is exactly the separator the encoder wrote, so parsing the
`Display` rendering recovers the original credentials even when the
password contains colons: no witness pair of the claimed kind exists. -/
theorem no_roundtrip_failure_with_colon_free_username :
    ¬ ∃ u p : String, (':' : Char) ∉ u.data ∧ (':' : Char) ∈ p.data ∧
      from_str (toDisplayString (.basic u (some p))) ≠ .ok (.basic u (some p)) := by
  rintro ⟨u, p, hu, hp, hne⟩
  exact hne (basic_roundtrip u p hu)

/-- Claim C9 (amended): the encode/parse pair fails to round-trip exactly
when the `username` contains a colon (the parse then splits inside the
username), e.g. `Basic{a:b, p}` parses back as `Basic{a, b:p}`; for every
colon-free username the round-trip is exact for any password, colons
included; `Bearer bar` and the invalid string behave as claimed. -/
theorem credential_roundtrip_amended (u p : String)
    (hu : (':' : Char) ∉ u.data) :
    from_str (toDisplayString (.basic u (some p))) = .ok (.basic u (some p)) ∧
    from_str (toDisplayString (.basic "a:b" (some "p"))) =
      .ok (.basic "a" (some "b:p")) ∧
    from_str "Bearer bar" = .ok (.bearer "bar") ∧
    from_str "Invalid" = .error .mk :=
  ⟨basic_roundtrip u p hu, rfl, rfl, rfl⟩

/-- Witness for C9 (amended) at a colon-free username and a password that
itself contains a colon. -/
theorem credential_roundtrip_amended_witness :
    from_str (toDisplayString (.basic "u" (some "a:b"))) =
      .ok (.basic "u" (some "a:b")) ∧
    from_str (toDisplayString (.basic "a:b" (some "p"))) =
      .ok (.basic "a" (some "b:p")) ∧
    from_str "Bearer bar" = .ok (.bearer "bar") ∧
    from_str "Invalid" = .error .mk :=
  credential_roundtrip_amended "u" "a:b" (by decide)

/-- Claim C10: an empty remainder after the scheme parses successfully
(`"Basic "` gives an empty username and no password, `"Bearer "` an empty
token), while a scheme with no trailing space at all is an error. -/
theorem empty_remainder_accepted :
    from_str "Basic " = .ok (.basic "" none) ∧
    from_str "Bearer " = .ok (.bearer "") ∧
    from_str "Basic" = .error .mk ∧
    from_str "Bearer" = .error .mk :=
  ⟨rfl, rfl, rfl, rfl⟩
